import Mathlib

/-!
Shallow embedding of the github-metrics-api pipeline
(EventPoller, EventProcessor, StatisticsAPI, VisualizationAPI lambdas)
and proofs about its specified properties.

Strings are modelled as Lean `String` (Python `str` is a sequence of code
points, as is `String.data`).  DynamoDB tables are modelled as association
lists; the processed-events table has the composite primary key
`(pk, created_at)` — this is the key schema the repository's test fixtures
(`src/tests/conftest.py`, `src/tests/test_statistics_api.py`) create, and
a DynamoDB `ConditionExpression` is evaluated against the existing item
that has the same *full* primary key.
-/

/-! ## EventPoller (src/api/EventPoller/app.py) -/

/-- A raw GitHub feed event, as consumed by the poller and the processor.
`payload_action` models `event["payload"].get("action")`. -/
structure RawEvent where
  id : String
  type : String
  repo_name : String
  actor_login : String
  created_at : String
  payload_action : Option String
deriving DecidableEq, Repr

/-- `INTERESTED_EVENTS` from the poller module. -/
def INTERESTED_EVENTS : List String := ["WatchEvent", "PullRequestEvent", "IssuesEvent"]

/-- `filter_new_events`: walk the newest-first batch, stop at the first
previously seen id, keep only events of an interesting type. -/
def filter_new_events : List RawEvent → List String → List RawEvent
  | [], _ => []
  | e :: rest, last_seen_ids =>
    if e.id ∈ last_seen_ids then []
    else if e.type ∈ INTERESTED_EVENTS then e :: filter_new_events rest last_seen_ids
    else filter_new_events rest last_seen_ids

/-- The poll-state record stored in DynamoDB (`get_poll_state` /
`update_poll_state`). -/
structure PollState where
  etag : Option String
  last_seen_ids : List String
  poll_interval : Nat
  last_poll : Option String
deriving DecidableEq, Repr

/-- Result of `poll_github_events`: either 304 Not Modified, or a
newest-first batch with a fresh etag and suggested poll interval. -/
inductive GithubPollResult where
  | notModified
  | ok (events : List RawEvent) (etag : Option String) (poll_interval : Nat)
deriving DecidableEq, Repr

/-- Outcome reported by the poller's `lambda_handler`. -/
inductive PollOutcome where
  | noNewEvents
  | processed (new_events : Nat) (total_events : Nat) (next_poll_in : Nat)
deriving DecidableEq, Repr

/-- The poller `lambda_handler` after the HTTP call: given the stored state
and the upstream result, it returns the reported outcome, the list of events
sent to SQS, and the poll state left in the table.  On 304 it returns
immediately; the state is written back only when the new-event list is
nonempty. -/
def poller_handle (state : PollState) (res : GithubPollResult) (now : String) :
    PollOutcome × List RawEvent × PollState :=
  match res with
  | .notModified => (.noNewEvents, [], state)
  | .ok events etag poll_interval =>
    let new_events := filter_new_events events state.last_seen_ids
    let state' :=
      if new_events.isEmpty then state
      else
        { etag := etag,
          last_seen_ids := (events.map (fun e => e.id)).take 100,
          poll_interval := poll_interval,
          last_poll := some now }
    (.processed new_events.length events.length poll_interval, new_events, state')

/-! ## EventProcessor (src/api/EventProcessor/app.py) -/

/-- The normalized record built by `process_github_event` (the
`processed_event` dict).  `pr_action` is set for `PullRequestEvent`,
`action` for `IssuesEvent`/`WatchEvent`. -/
structure ProcessedEvent where
  id : String
  type : String
  repo_name : String
  actor_login : String
  created_at : String
  processed_at : String
  pr_action : Option String
  action : Option String
deriving DecidableEq, Repr

/-- `process_github_event` minus the store call: normalization of a raw
event into a `ProcessedEvent` (`now` stands for `datetime.now(...)`). -/
def process_github_event (e : RawEvent) (now : String) : ProcessedEvent :=
  { id := e.id
    type := e.type
    repo_name := e.repo_name
    actor_login := e.actor_login
    created_at := e.created_at
    processed_at := now
    pr_action := if e.type = "PullRequestEvent" then e.payload_action else none
    action := if e.type = "IssuesEvent" ∨ e.type = "WatchEvent" then e.payload_action else none }

/-- A row of the processed-events table, as assembled in
`store_processed_event`. -/
structure Item where
  pk : String
  created_at : String
  event_type : String
  repo_name : String
  actor_login : String
  processed_at : String
  id : String
  pr_action : Option String
  action : Option String
deriving DecidableEq, Repr

/-- The `item` dict built by `store_processed_event`. -/
def make_item (p : ProcessedEvent) : Item :=
  { pk := "event#" ++ p.id
    created_at := p.created_at
    event_type := p.type
    repo_name := p.repo_name
    actor_login := p.actor_login
    processed_at := p.processed_at
    id := p.id
    pr_action := if p.type = "PullRequestEvent" then p.pr_action else none
    action := if p.type = "IssuesEvent" ∨ p.type = "WatchEvent" then p.action else none }

/-- The processed-events table. -/
abbrev EventsTable := List Item

/-- Is there a row with the given full primary key `(pk, created_at)`? -/
def hasRowKey (tbl : EventsTable) (pk created_at : String) : Bool :=
  tbl.any (fun r => decide (r.pk = pk ∧ r.created_at = created_at))

/-- `table.put_item(Item=item, ConditionExpression="attribute_not_exists(pk)")`
against a table whose primary key is the composite `(pk, created_at)`:
DynamoDB evaluates the condition against the already-stored item with the
same full primary key, and every stored item carries its `pk` attribute, so
the put fails exactly when a row with the same `(pk, created_at)` exists. -/
def put_item_if_pk_absent (it : Item) (tbl : EventsTable) : Except Unit EventsTable :=
  if hasRowKey tbl it.pk it.created_at then .error () else .ok (it :: tbl)

/-- The per-repo summary table (`repo-pr-summary`): repo name ↦ counter. -/
abbrev CounterTable := List (String × Nat)

/-- `ADD opened_pr_count :inc` with `:inc = 1`: atomic increment, creating
the attribute at 1 when the row or attribute is missing. -/
def add_opened_pr_count (repo : String) : CounterTable → CounterTable
  | [] => [(repo, 1)]
  | (r, c) :: rest =>
    if r = repo then (r, c + 1) :: rest else (r, c) :: add_opened_pr_count repo rest

/-- Read a repo's `opened_pr_count` (0 when absent). -/
def opened_pr_count : CounterTable → String → Nat
  | [], _ => 0
  | (r, c) :: rest, repo => if r = repo then c else opened_pr_count rest repo

/-- The two tables the processor touches. -/
structure Store where
  events : EventsTable
  counters : CounterTable
deriving DecidableEq, Repr

/-- `store_processed_event`: conditional insert keyed by
`attribute_not_exists(pk)`; on a first-time insert of an opened
`PullRequestEvent`, increment the repo's summary counter.  Returns `true`
for Inserted and `false` for DuplicateSkipped. -/
def store_processed_event (p : ProcessedEvent) (s : Store) : Bool × Store :=
  match put_item_if_pk_absent (make_item p) s.events with
  | .error _ => (false, s)
  | .ok tbl =>
    if p.type = "PullRequestEvent" ∧ p.pr_action = some "opened" then
      (true, { events := tbl, counters := add_opened_pr_count p.repo_name s.counters })
    else
      (true, { events := tbl, counters := s.counters })

/-- Number of rows with the given full key. -/
def rowCountByKey (tbl : EventsTable) (pk created_at : String) : Nat :=
  (tbl.filter (fun r => decide (r.pk = pk ∧ r.created_at = created_at))).length

/-- Number of rows carrying the given event id. -/
def rowCountById (tbl : EventsTable) (i : String) : Nat :=
  (tbl.filter (fun r => decide (r.id = i))).length

/-! ## StatisticsAPI (src/api/StatisticsAPI/app.py) -/

/-- `[a-zA-Z0-9]` of the source's regex (Python character classes here are
ASCII-only on these inputs). -/
def isAsciiAlnum (c : Char) : Bool := c.isAlpha || c.isDigit

/-- `[a-zA-Z0-9._-]`, the characters allowed in the middle of an owner or
repo segment. -/
def isNameMid (c : Char) : Bool := isAsciiAlnum c || c = '.' || c = '_' || c = '-'

/-- Does `pat` occur as a contiguous infix (Python `pat in s`)? -/
def hasInfix (pat : List Char) : List Char → Bool
  | [] => pat.isEmpty
  | c :: rest => pat.isPrefixOf (c :: rest) || hasInfix pat rest

/-- Python `s.split('/')` on the code-point list. -/
def splitOnSlashChars : List Char → List (List Char)
  | [] => [[]]
  | c :: rest =>
    if c = '/' then [] :: splitOnSlashChars rest
    else
      match splitOnSlashChars rest with
      | [] => [[c]]
      | h :: t => (c :: h) :: t

/-- Full match of `^[a-zA-Z0-9]([a-zA-Z0-9._-])*[a-zA-Z0-9]$|^[a-zA-Z0-9]$`
against the whole char sequence. -/
def plain_name_match : List Char → Bool
  | [] => false
  | [c] => isAsciiAlnum c
  | c :: cs =>
    isAsciiAlnum c &&
      (match cs.getLast? with
       | some d => isAsciiAlnum d
       | none => false) &&
      cs.dropLast.all isNameMid

/-- `re.match(pattern, s)` with the source's `^...$`-anchored pattern: `$`
also matches just before a single trailing newline, so `s` or `s` minus a
final `'\n'` may match. -/
def matches_name_pattern (cs : List Char) : Bool :=
  plain_name_match cs ||
    (decide (cs.getLast? = some '\n') && plain_name_match cs.dropLast)

/-- `is_valid_github_repo_name`. -/
def is_valid_github_repo_name (repo_name : String) : Bool :=
  if repo_name = "" then false
  else if hasInfix ['.', '.'] repo_name.toList
      || decide (repo_name.toList.head? = some '/')
      || decide (repo_name.toList.getLast? = some '/') then false
  else
    match splitOnSlashChars repo_name.toList with
    | [owner, repo] =>
      if matches_name_pattern owner && matches_name_pattern repo then
        if 39 < owner.length || 100 < repo.length then false else true
      else false
    | _ => false

/-- One decimal digit. -/
def digitVal (c : Char) : Option Nat :=
  if c.isDigit then some (c.toNat - 48) else none

/-- Two decimal digits. -/
def parse2 (a b : Char) : Option Nat :=
  match digitVal a, digitVal b with
  | some x, some y => some (10 * x + y)
  | _, _ => none

/-- Four decimal digits. -/
def parse4 (a b c d : Char) : Option Nat :=
  match parse2 a b, parse2 c d with
  | some x, some y => some (100 * x + y)
  | _, _ => none

/-- Days between a proleptic-Gregorian civil date and 1970-01-01
(the arithmetic behind `datetime.timestamp()` for UTC datetimes). -/
def days_from_civil (y m d : Int) : Int :=
  let y2 := if m ≤ 2 then y - 1 else y
  let era := (if 0 ≤ y2 then y2 else y2 - 399) / 400
  let yoe := y2 - era * 400
  let mp := (m + 9) % 12
  let doy := (153 * mp + 2) / 5 + d - 1
  let doe := yoe * 365 + yoe / 4 - yoe / 100 + doy
  era * 146097 + doe - 719468

/-- `datetime.fromisoformat(s.replace('Z', '+00:00')).timestamp()` for the
feed's fixed `%Y-%m-%dT%H:%M:%SZ` timestamps, as whole epoch seconds
(the field-range validation is simplified to fixed bounds). -/
def parse_created_at (s : String) : Option Int :=
  match s.toList with
  | [y1, y2, y3, y4, p1, m1, m2, p2, d1, d2, p3, h1, h2, p4, n1, n2, p5, c1, c2, p6] =>
    if p1 = '-' ∧ p2 = '-' ∧ p3 = 'T' ∧ p4 = ':' ∧ p5 = ':' ∧ p6 = 'Z' then
      match parse4 y1 y2 y3 y4, parse2 m1 m2, parse2 d1 d2,
          parse2 h1 h2, parse2 n1 n2, parse2 c1 c2 with
      | some y, some mo, some da, some ho, some mi, some se =>
        if 1 ≤ mo ∧ mo ≤ 12 ∧ 1 ≤ da ∧ da ≤ 31 ∧ ho ≤ 23 ∧ mi ≤ 59 ∧ se ≤ 59 then
          some (days_from_civil (y : Int) (mo : Int) (da : Int) * 86400
            + (ho : Int) * 3600 + (mi : Int) * 60 + (se : Int))
        else none
      | _, _, _, _, _, _ => none
    else none
  | _ => none

/-- Consecutive differences of a list of timestamps. -/
def consecDiffs : List Int → List Int
  | a :: b :: rest => (b - a) :: consecDiffs (b :: rest)
  | _ => []

/-- The two `ValueError` shapes `calculate_average_time_between_pr` can
raise: not enough events, or an unparsable `created_at`. -/
inductive CalcErr where
  | needTwo
  | badDate
deriving DecidableEq, Repr

/-- `calculate_average_time_between_pr`: filter to opened rows, fall back to
all rows when fewer than 2 opened remain, raise when still fewer than 2,
else parse, sort ascending and return the mean of consecutive differences
in seconds (exact rationals stand in for Python floats; every quantity here
is integer seconds, and the division is the only non-integer step). -/
def calculate_average_time_between_pr (pr_events : List Item) : Except CalcErr Rat :=
  let opened := pr_events.filter (fun e => decide (e.pr_action = some "opened"))
  let evs := if opened.length < 2 then pr_events else opened
  if evs.length < 2 then .error .needTwo
  else if evs.all (fun e => (parse_created_at e.created_at).isSome) then
    let timestamps := evs.filterMap (fun e => parse_created_at e.created_at)
    let sorted := List.insertionSort (· ≤ ·) timestamps
    let diffs := consecDiffs sorted
    .ok ((diffs.sum : Rat) / (diffs.length : Rat))
  else .error .badDate

/-- The same computation over all rows, with no opened-only filtering:
what the fallback branch of `calculate_average_time_between_pr` computes. -/
def avg_over_all_rows (pr_events : List Item) : Except CalcErr Rat :=
  if pr_events.length < 2 then .error .needTwo
  else if pr_events.all (fun e => (parse_created_at e.created_at).isSome) then
    let timestamps := pr_events.filterMap (fun e => parse_created_at e.created_at)
    let sorted := List.insertionSort (· ≤ ·) timestamps
    let diffs := consecDiffs sorted
    .ok ((diffs.sum : Rat) / (diffs.length : Rat))
  else .error .badDate

/-- Mean of the consecutive differences of the ascending sort of `ts`. -/
def meanConsecDiffsSorted (ts : List Int) : Rat :=
  let diffs := consecDiffs (List.insertionSort (· ≤ ·) ts)
  (diffs.sum : Rat) / (diffs.length : Rat)

/-- Lexicographic order on code-point sequences: how DynamoDB orders its
string range keys and how Python compares `str` (for the ASCII timestamps
at hand the two orders coincide). -/
def charListLtb : List Char → List Char → Bool
  | [], [] => false
  | [], _ :: _ => true
  | _ :: _, [] => false
  | a :: as, b :: bs => decide (a < b) || (decide (a = b) && charListLtb as bs)

/-- Ascending order on `created_at` (the `ScanIndexForward=True` range-key
order of the `EventTypeIndex` query; ISO strings of one format compare like
the instants they denote). -/
def item_le (a b : Item) : Prop :=
  charListLtb b.created_at.toList a.created_at.toList = false

instance : DecidableRel item_le := fun a b =>
  inferInstanceAs (Decidable (charListLtb b.created_at.toList a.created_at.toList = false))

/-- `get_pr_events_for_repo`: query the `EventTypeIndex` partition
`PullRequestEvent` in ascending `created_at` order, filtered server-side to
the requested repo, paginated to completion. -/
def get_pr_events_for_repo (repo_name : String) (tbl : EventsTable) : List Item :=
  List.insertionSort item_le
    (tbl.filter (fun it => decide (it.event_type = "PullRequestEvent" ∧ it.repo_name = repo_name)))

/-- `list_repos_with_opened_pr`: scan the summary table, keeping repos with
`opened_pr_count > min_count` (a strict bound). -/
def list_repos_with_opened_pr (min_count : Nat) (counters : CounterTable) : List String :=
  (counters.filter (fun rc => decide (min_count < rc.2))).map (fun rc => rc.1)

/-- Round half to even at the second decimal (Python `round(x, 2)`,
modelled over exact rationals). -/
def round_half_even (x : Rat) : Int :=
  let f := ⌊x⌋
  let r := x - (f : Rat)
  if r < 1 / 2 then f
  else if 1 / 2 < r then f + 1
  else if f % 2 = 0 then f else f + 1

/-- `round(avg_seconds, 2)`. -/
def round2 (x : Rat) : Rat := (round_half_even (x * 100) : Rat) / 100

/-- The JSON bodies `handle_pr_average_request` can answer with. -/
inductive StatsResponse where
  /-- 200 with `{'repositories': repos}`, or a `null` body when none. -/
  | reposList (repos : Option (List String))
  /-- 400, invalid repository name format. -/
  | invalidRepoName
  /-- 200 with `average_time_between_pr = None` and the insufficient-data
  message; carries `pr_count` (opened-only) and `total_pr_events`. -/
  | insufficientData (repository : String) (pr_count total_pr_events : Nat)
  /-- 200 with the rounded average and first/last opened-PR dates. -/
  | average (repository : String) (pr_count total_pr_events : Nat)
      (average_time_between_pr : Rat) (first_pr_date last_pr_date : String)
  /-- 400, invalid date format (a `ValueError` escaped). -/
  | invalidDate
deriving DecidableEq, Repr

/-- `handle_pr_average_request`, as a function of the query parameter and
the two tables.  A missing or empty `repo` parameter takes the listing
branch (`if not repo_name`); an invalid name is rejected before any
processed-events access; otherwise the opened-only rows decide between the
insufficient-data answer and the average. -/
def handle_pr_average_request (repoParam : Option String) (tbl : EventsTable)
    (counters : CounterTable) : StatsResponse :=
  let repo_name := repoParam.getD ""
  if repo_name = "" then
    let repos := list_repos_with_opened_pr 2 counters
    .reposList (if repos.isEmpty then none else some repos)
  else if is_valid_github_repo_name repo_name then
    let pr_events := get_pr_events_for_repo repo_name tbl
    let opened_events := pr_events.filter (fun e => decide (e.pr_action = some "opened"))
    if opened_events.length < 2 then
      .insufficientData repo_name opened_events.length pr_events.length
    else
      match calculate_average_time_between_pr opened_events with
      | .ok avg_seconds =>
        .average repo_name opened_events.length pr_events.length (round2 avg_seconds)
          ((opened_events.head?.map (fun e => e.created_at)).getD "")
          ((opened_events.getLast?.map (fun e => e.created_at)).getD "")
      | .error _ => .invalidDate
  else .invalidRepoName

/-- A count query that can fail (exception or timeout); degrading such a
failure to a zero count is the behaviour under proof. -/
def qval (q : String → Except Unit Nat) (t : String) : Nat :=
  match q t with
  | .ok n => n
  | .error _ => 0

/-- `get_events_by_type_and_time`: one count query per category; a failed
query contributes 0 for that category only. -/
def get_events_by_type_and_time (event_types : List String)
    (q : String → Except Unit Nat) : List (String × Nat) :=
  event_types.map (fun t => (t, qval q t))

/-- Value stored for a category in a counts mapping. -/
def lookupCount (l : List (String × Nat)) (t : String) : Option Nat :=
  (l.find? (fun p => p.1 == t)).map (fun p => p.2)

/-! ## VisualizationAPI (src/api/VisualizationAPI/app.py) -/

/-- The `event_types` list of the timeline endpoint. -/
def event_types_vis : List String := ["WatchEvent", "PullRequestEvent", "IssuesEvent"]

/-- One timeline data point.  Time is in minutes (an integer instant); the
record's `timestamp` sort key in the source equals `interval_start`
serialized, and equal-format ISO strings compare like the instants, so the
sort key is modelled by `interval_start` itself. -/
structure TimelinePoint where
  interval_start : Int
  interval_end : Int
  counts : List (String × Nat)
deriving DecidableEq, Repr

/-- `get_interval_counts`: per-category count queries for one bucket; a
failed or timed-out category query contributes 0 for that category only. -/
def get_interval_counts (cell : String → Except Unit Nat) : List (String × Nat) :=
  event_types_vis.map (fun t => (t, qval cell t))

/-- The all-zero counts used when a whole bucket query fails. -/
def zero_counts : List (String × Nat) := event_types_vis.map (fun t => (t, 0))

/-- Ascending order on the bucket sort key. -/
def timeline_le (a b : TimelinePoint) : Prop := a.interval_start ≤ b.interval_start

instance : DecidableRel timeline_le := fun a b =>
  inferInstanceAs (Decidable (a.interval_start ≤ b.interval_start))

instance : IsTotal TimelinePoint timeline_le :=
  ⟨fun a b => Int.le_total a.interval_start b.interval_start⟩

instance : IsTrans TimelinePoint timeline_le :=
  ⟨fun _ _ _ h1 h2 => le_trans h1 h2⟩

/-- The timeline list as collected before sorting: bucket `i` covers
`[now - (i+1)·W, now - i·W]`, collected in submission order; `bucket i`
is the outcome of the bucket's concurrent future (`.error` models a failed
or timed-out future, degraded to all-zero counts). -/
def timeline_pre (hours interval_minutes : Nat) (now : Int)
    (bucket : Nat → Except Unit (String → Except Unit Nat)) : List TimelinePoint :=
  let num_intervals := min (hours * 60 / interval_minutes) 100
  (List.range num_intervals).map (fun (i : Nat) =>
    { interval_start := now - ((i : Int) + 1) * (interval_minutes : Int)
      interval_end := now - (i : Int) * (interval_minutes : Int)
      counts :=
        match bucket i with
        | .ok cell => get_interval_counts cell
        | .error _ => zero_counts })

/-- `get_event_timeline_data`: run the per-bucket queries, then sort the
collected points chronologically (oldest first). -/
def get_event_timeline_data (hours interval_minutes : Nat) (now : Int)
    (bucket : Nat → Except Unit (String → Except Unit Nat)) : List TimelinePoint :=
  List.insertionSort timeline_le (timeline_pre hours interval_minutes now bucket)

/-! ## Concrete fixtures (mirroring the repository's test seed data) -/

/-- A processed `PullRequestEvent` row. -/
def mk_pr_item (i ca : String) (act : Option String) (repo : String) : Item :=
  { pk := "event#" ++ i
    created_at := ca
    event_type := "PullRequestEvent"
    repo_name := repo
    actor_login := "tester"
    processed_at := "2025-08-23T13:00:00+00:00"
    id := i
    pr_action := act
    action := none }

/-- A processed `WatchEvent` row. -/
def mk_watch_item (i ca repo : String) : Item :=
  { pk := "event#" ++ i
    created_at := ca
    event_type := "WatchEvent"
    repo_name := repo
    actor_login := "tester"
    processed_at := "2025-08-23T13:00:00+00:00"
    id := i
    pr_action := none
    action := some "started" }

/-- The seed rows of `test_pr_average_computation`: three opened PRs for one
repo at 12:00/12:10/12:25, plus noise (another repo's PR, a WatchEvent). -/
def c5_items : List Item :=
  [ mk_pr_item "e1" "2025-08-23T12:00:00Z" (some "opened") "octocat/hello-world"
  , mk_pr_item "e2" "2025-08-23T12:10:00Z" (some "opened") "octocat/hello-world"
  , mk_pr_item "e3" "2025-08-23T12:25:00Z" (some "opened") "octocat/hello-world"
  , mk_pr_item "e4" "2025-08-23T12:05:00Z" (some "opened") "someone/else"
  , mk_watch_item "e5" "2025-08-23T12:07:00Z" "octocat/hello-world" ]

/-- The three opened rows of `c5_items`, in ascending `created_at` order. -/
def c5_opened : List Item :=
  [ mk_pr_item "e1" "2025-08-23T12:00:00Z" (some "opened") "octocat/hello-world"
  , mk_pr_item "e2" "2025-08-23T12:10:00Z" (some "opened") "octocat/hello-world"
  , mk_pr_item "e3" "2025-08-23T12:25:00Z" (some "opened") "octocat/hello-world" ]

/-- One opened and two non-opened PR rows for one repo: fewer than 2 opened
rows but 3 pull-request rows in total. -/
def c3_items : List Item :=
  [ mk_pr_item "a1" "2025-08-23T12:00:00Z" (some "opened") "octocat/hello-world"
  , mk_pr_item "a2" "2025-08-23T12:10:00Z" (some "closed") "octocat/hello-world"
  , mk_pr_item "a3" "2025-08-23T12:20:00Z" (some "closed") "octocat/hello-world" ]

/-- Two non-opened PR rows: the fallback set of
`calculate_average_time_between_pr` on them has 2 rows. -/
def c3_two_closed : List Item :=
  [ mk_pr_item "b1" "2025-08-23T12:00:00Z" (some "closed") "octocat/hello-world"
  , mk_pr_item "b2" "2025-08-23T12:10:00Z" (some "closed") "octocat/hello-world" ]

/-- An opened pull-request event as delivered to the processor. -/
def c10_first : ProcessedEvent :=
  { id := "pr-42"
    type := "PullRequestEvent"
    repo_name := "octocat/hello-world"
    actor_login := "tester"
    created_at := "2025-08-23T12:00:00Z"
    processed_at := "2025-08-23T13:00:00+00:00"
    pr_action := some "opened"
    action := none }

/-- The same event id delivered again with a different `createdAt`. -/
def c10_second : ProcessedEvent :=
  { c10_first with created_at := "2025-08-23T12:05:00Z" }

/-- A raw feed event with just the fields the poller inspects. -/
def mk_raw (i t : String) : RawEvent :=
  { id := i
    type := t
    repo_name := "octocat/hello-world"
    actor_login := "tester"
    created_at := "2025-08-23T12:00:00Z"
    payload_action := none }

/-- A newest-first batch whose first id known to the cursor sits at
position 2; the event at position 1 is of an uninteresting type. -/
def c2_events : List RawEvent :=
  [mk_raw "101" "WatchEvent", mk_raw "102" "PushEvent", mk_raw "103" "IssuesEvent",
   mk_raw "104" "WatchEvent"]

/-- An always-succeeding count query. -/
def q_ok : String → Except Unit Nat := fun _ => .ok 7

/-- The same query function with the `PullRequestEvent` cell failing. -/
def q_fail_pr : String → Except Unit Nat :=
  fun t => if t = "PullRequestEvent" then .error () else q_ok t

/-- Per-bucket oracle with every bucket succeeding. -/
def bucket_ok : Nat → Except Unit (String → Except Unit Nat) := fun _ => .ok q_ok

/-- Per-bucket oracle with bucket 0 failing. -/
def bucket_fail0 : Nat → Except Unit (String → Except Unit Nat) :=
  fun i => if i = 0 then .error () else .ok q_ok

/-! ## Helper lemmas -/

theorem opened_pr_count_add (repo r : String) :
    ∀ c : CounterTable,
      opened_pr_count (add_opened_pr_count repo c) r =
        opened_pr_count c r + (if r = repo then 1 else 0)
  | [] => by
    by_cases h : repo = r
    · subst h; simp [add_opened_pr_count, opened_pr_count]
    · have h2 : ¬ r = repo := fun e => h e.symm
      simp [add_opened_pr_count, opened_pr_count, h, h2]
  | (a, b) :: rest => by
    by_cases har : a = repo
    · subst har
      by_cases h : a = r
      · subst h; simp [add_opened_pr_count, opened_pr_count]
      · have h2 : ¬ r = a := fun e => h e.symm
        simp [add_opened_pr_count, opened_pr_count, h, h2]
    · by_cases h : a = r
      · subst h
        have h3 : ¬ a = repo := har
        simp [add_opened_pr_count, opened_pr_count, h3]
      · simp [add_opened_pr_count, opened_pr_count, har, h,
          opened_pr_count_add repo r rest]

theorem rowCountByKey_eq_zero {tbl : EventsTable} {pk ca : String}
    (h : hasRowKey tbl pk ca = false) : rowCountByKey tbl pk ca = 0 := by
  simp only [hasRowKey, List.any_eq_false] at h
  simp only [rowCountByKey, List.length_eq_zero, List.filter_eq_nil_iff]
  exact h

/-! ## Claim theorems -/

/-- C8: on an upstream 304 Not Modified, the poll invocation dispatches no
events, leaves the stored cursor (etag, seen-event ids, poll interval,
last-poll time) untouched, and reports the successful no-new-events
outcome. -/
theorem poller_not_modified_short_circuit (state : PollState) (now : String) :
    poller_handle state .notModified now =
      (PollOutcome.noNewEvents, ([] : List RawEvent), state) := rfl

/-- C1: processing an event and then processing it again (same id, same
createdAt) against a store where it is not yet present yields Inserted then
DuplicateSkipped, leaves exactly one row under the event's key, leaves the
duplicate call's store untouched, and increments the entity counter at most
once (and only for the event's own repo). -/
theorem store_processed_event_idempotent (p q : ProcessedEvent) (s : Store)
    (hid : q.id = p.id) (hca : q.created_at = p.created_at)
    (hnew : hasRowKey s.events ("event#" ++ p.id) p.created_at = false) :
    (store_processed_event p s).1 = true ∧
    (store_processed_event q (store_processed_event p s).2).1 = false ∧
    (store_processed_event q (store_processed_event p s).2).2 = (store_processed_event p s).2 ∧
    rowCountByKey (store_processed_event p s).2.events ("event#" ++ p.id) p.created_at = 1 ∧
    ∀ repo : String,
      opened_pr_count (store_processed_event p s).2.counters repo ≤
        opened_pr_count s.counters repo + (if repo = p.repo_name then 1 else 0) := by
  have hpk : (make_item p).pk = "event#" ++ p.id := rfl
  have hc : (make_item p).created_at = p.created_at := rfl
  have hput : put_item_if_pk_absent (make_item p) s.events = .ok (make_item p :: s.events) := by
    simp [put_item_if_pk_absent, hpk, hc, hnew]
  have hkey2 : hasRowKey (make_item p :: s.events) (make_item q).pk (make_item q).created_at
      = true := by
    simp [hasRowKey, List.any_cons, make_item, hid, hca]
  have hsecond : ∀ C : CounterTable,
      store_processed_event q ⟨make_item p :: s.events, C⟩ =
        (false, ⟨make_item p :: s.events, C⟩) := by
    intro C
    simp [store_processed_event, put_item_if_pk_absent, hkey2]
  have hcount : rowCountByKey (make_item p :: s.events) ("event#" ++ p.id) p.created_at = 1 := by
    have hnil : (s.events.filter
        (fun r => decide (r.pk = "event#" ++ p.id ∧ r.created_at = p.created_at))) = [] := by
      have h0 := rowCountByKey_eq_zero hnew
      rw [rowCountByKey] at h0
      exact List.length_eq_zero.mp h0
    have hmem := List.filter_eq_nil_iff.mp hnil
    simp [rowCountByKey, List.filter_cons, make_item, hnil]
    intro a ha hpk2
    have h4 := hmem a ha
    simp [hpk2] at h4
    exact h4
  by_cases hc1 : p.type = "PullRequestEvent" ∧ p.pr_action = some "opened"
  · have h1 : store_processed_event p s =
        (true, ⟨make_item p :: s.events,
          add_opened_pr_count p.repo_name s.counters⟩) := by
      simp only [store_processed_event, hput]
      rw [if_pos hc1]
    rw [h1]
    refine ⟨rfl, ?_, ?_, hcount, ?_⟩
    · rw [hsecond]
    · rw [hsecond]
    · intro repo
      exact le_of_eq (opened_pr_count_add p.repo_name repo s.counters)
  · have h1 : store_processed_event p s =
        (true, ⟨make_item p :: s.events, s.counters⟩) := by
      simp only [store_processed_event, hput]
      rw [if_neg hc1]
    rw [h1]
    refine ⟨rfl, ?_, ?_, hcount, ?_⟩
    · rw [hsecond]
    · rw [hsecond]
    · intro repo
      exact Nat.le_add_right _ _

/-- Witness for C1: a concrete opened-PR event processed twice against the
empty store. -/
theorem store_processed_event_idempotent_witness :
    hasRowKey ([] : EventsTable) ("event#" ++ c10_first.id) c10_first.created_at = false ∧
    (store_processed_event c10_first ⟨[], []⟩).1 = true ∧
    (store_processed_event c10_first (store_processed_event c10_first ⟨[], []⟩).2).1 = false ∧
    (store_processed_event c10_first (store_processed_event c10_first ⟨[], []⟩).2).2 =
      (store_processed_event c10_first ⟨[], []⟩).2 ∧
    rowCountByKey (store_processed_event c10_first ⟨[], []⟩).2.events
      ("event#" ++ c10_first.id) c10_first.created_at = 1 ∧
    opened_pr_count (store_processed_event c10_first ⟨[], []⟩).2.counters "octocat/hello-world" ≤
      opened_pr_count ([] : CounterTable) "octocat/hello-world" +
        (if "octocat/hello-world" = c10_first.repo_name then 1 else 0) := by
  have H := store_processed_event_idempotent c10_first c10_first ⟨[], []⟩ rfl rfl (by decide)
  exact ⟨by decide, H.1, H.2.1, H.2.2.1, H.2.2.2.1, H.2.2.2.2 "octocat/hello-world"⟩

/-- C10 counterexample: the same event id delivered with a different
createdAt is *inserted again* (not DuplicateSkipped): the store ends up
with two rows for id `pr-42` and the repo counter is incremented twice —
refuting the claim that the effective dedup key is the id alone. -/
theorem dedup_by_id_alone_cex :
    (store_processed_event c10_second (store_processed_event c10_first ⟨[], []⟩).2).1 = true ∧
    rowCountById
      (store_processed_event c10_second
        (store_processed_event c10_first ⟨[], []⟩).2).2.events "pr-42" = 2 ∧
    opened_pr_count
      (store_processed_event c10_second
        (store_processed_event c10_first ⟨[], []⟩).2).2.counters "octocat/hello-world" = 2 := by
  decide

/-- C10 (amended): the conditional insert is evaluated against the row with
the same full composite key, so a delivery is DuplicateSkipped exactly when
a row with the same `(event#id, createdAt)` pair is already stored: the
effective dedup key is the `(id, createdAt)` pair, not the id alone. -/
theorem store_processed_event_dedup_key (p : ProcessedEvent) (s : Store) :
    (store_processed_event p s).1 = false ↔
      hasRowKey s.events ("event#" ++ p.id) p.created_at = true := by
  have hpk : (make_item p).pk = "event#" ++ p.id := rfl
  have hc : (make_item p).created_at = p.created_at := rfl
  cases hkey : hasRowKey s.events ("event#" ++ p.id) p.created_at
  · have hput : put_item_if_pk_absent (make_item p) s.events = .ok (make_item p :: s.events) := by
      simp [put_item_if_pk_absent, hpk, hc, hkey]
    have htrue : (store_processed_event p s).1 = true := by
      simp only [store_processed_event, hput]
      by_cases hc1 : p.type = "PullRequestEvent" ∧ p.pr_action = some "opened"
      · rw [if_pos hc1]
      · rw [if_neg hc1]
    rw [htrue]
    simp
  · have hput : put_item_if_pk_absent (make_item p) s.events = .error () := by
      simp [put_item_if_pk_absent, hpk, hc, hkey]
    have hfalse : store_processed_event p s = (false, s) := by
      simp only [store_processed_event, hput]
    rw [hfalse]
    simp

theorem filter_new_events_no_seen :
    ∀ (events : List RawEvent) (seen : List String),
      (∀ e ∈ events, e.id ∉ seen) →
      filter_new_events events seen =
        events.filter (fun e => decide (e.type ∈ INTERESTED_EVENTS))
  | [], _, _ => rfl
  | e :: rest, seen, h => by
    have he : e.id ∉ seen := h e (List.mem_cons_self e rest)
    have hrec := filter_new_events_no_seen rest seen
      (fun x hx => h x (List.mem_cons_of_mem e hx))
    simp only [filter_new_events, List.filter_cons]
    rw [if_neg he]
    by_cases ht : e.type ∈ INTERESTED_EVENTS
    · rw [hrec]; simp [ht]
    · rw [hrec]; simp [ht]

theorem filter_new_events_boundary :
    ∀ (events : List RawEvent) (seen : List String) (k : Nat) (hk : k < events.length),
      (events.get ⟨k, hk⟩).id ∈ seen →
      (∀ (j : Nat) (hj : j < events.length), j < k → (events.get ⟨j, hj⟩).id ∉ seen) →
      filter_new_events events seen =
        (events.take k).filter (fun e => decide (e.type ∈ INTERESTED_EVENTS))
  | [], _, k, hk, _, _ => absurd hk (by simp)
  | e :: rest, seen, 0, _, hmem, _ => by
    simp only [filter_new_events, List.take_zero, List.filter_nil]
    rw [if_pos (show e.id ∈ seen from hmem)]
  | e :: rest, seen, k + 1, hk, hmem, hbound => by
    have he : e.id ∉ seen := hbound 0 (Nat.succ_pos _) (Nat.succ_pos k)
    have hk' : k < rest.length := Nat.lt_of_succ_lt_succ hk
    have hmem' : (rest.get ⟨k, hk'⟩).id ∈ seen := hmem
    have hbound' : ∀ (j : Nat) (hj : j < rest.length), j < k →
        (rest.get ⟨j, hj⟩).id ∉ seen := fun j hj hjk =>
      hbound (j + 1) (Nat.succ_lt_succ hj) (Nat.succ_lt_succ hjk)
    have hrec := filter_new_events_boundary rest seen k hk' hmem' hbound'
    simp only [filter_new_events, List.take_succ_cons, List.filter_cons]
    rw [if_neg he, hrec]
    by_cases ht : e.type ∈ INTERESTED_EVENTS
    · simp [ht]
    · simp [ht]

/-- C2: when the first batch position whose id the cursor has seen is `k`,
the new-event extraction returns exactly the interest-filtered events at
positions `[0, k)` in batch order; and when no batch id is in the seen
list, it returns the interest-filtered whole batch. -/
theorem filter_new_events_dedup_boundary :
    (∀ (events : List RawEvent) (seen : List String) (k : Nat) (hk : k < events.length),
        (events.get ⟨k, hk⟩).id ∈ seen →
        (∀ (j : Nat) (hj : j < events.length), j < k → (events.get ⟨j, hj⟩).id ∉ seen) →
        filter_new_events events seen =
          (events.take k).filter (fun e => decide (e.type ∈ INTERESTED_EVENTS)))
    ∧ (∀ (events : List RawEvent) (seen : List String),
        (∀ e ∈ events, e.id ∉ seen) →
        filter_new_events events seen =
          events.filter (fun e => decide (e.type ∈ INTERESTED_EVENTS))) :=
  ⟨filter_new_events_boundary, filter_new_events_no_seen⟩

/-- Witness for C2 on a concrete four-event batch: the cursor knows the id
at position 2, so positions 0 and 1 are kept modulo the interest filter;
and with an unknown cursor the whole batch is interest-filtered. -/
theorem filter_new_events_dedup_boundary_witness :
    ((c2_events.get ⟨2, by decide⟩).id ∈ ["103"] ∧
      filter_new_events c2_events ["103"] =
        (c2_events.take 2).filter (fun e => decide (e.type ∈ INTERESTED_EVENTS))) ∧
    filter_new_events c2_events ["999"] =
      c2_events.filter (fun e => decide (e.type ∈ INTERESTED_EVENTS)) := by
  refine ⟨⟨by decide, ?_⟩, ?_⟩
  · exact filter_new_events_dedup_boundary.1 c2_events ["103"] 2 (by decide)
      (by decide) (by decide)
  · exact filter_new_events_dedup_boundary.2 c2_events ["999"] (by decide)

/-- C3 counterexample: a repo with 1 opened and 2 non-opened pull-request
rows (3 PR rows in total, fewer than 2 opened).  The endpoint answers
"insufficient data" instead of computing the fallback average over all
pull-request rows: the claim fails on the code. -/
theorem pr_average_endpoint_no_fallback_cex :
    handle_pr_average_request (some "octocat/hello-world") c3_items [] =
      .insufficientData "octocat/hello-world" 1 3 := by decide

/-- C3 (amended): the opened-to-all fallback lives only inside
`calculate_average_time_between_pr`: with fewer than 2 opened rows that
helper computes over all pull-request rows (and returns the mean over all
rows whenever at least 2 rows parse); but the endpoint pre-filters to
opened rows and answers "insufficient data" whenever fewer than 2 opened
rows exist, regardless of the total, so the fallback is unreachable from
the endpoint. -/
theorem pr_average_fallback_location :
    (∀ pr_events : List Item,
      (pr_events.filter (fun e => decide (e.pr_action = some "opened"))).length < 2 →
        calculate_average_time_between_pr pr_events = avg_over_all_rows pr_events) ∧
    (∀ pr_events : List Item,
      (pr_events.filter (fun e => decide (e.pr_action = some "opened"))).length < 2 →
      2 ≤ pr_events.length →
      pr_events.all (fun e => (parse_created_at e.created_at).isSome) = true →
        calculate_average_time_between_pr pr_events =
          .ok (meanConsecDiffsSorted
            (pr_events.filterMap (fun e => parse_created_at e.created_at)))) ∧
    (∀ (repo : String) (tbl : EventsTable) (counters : CounterTable),
      is_valid_github_repo_name repo = true →
      ((get_pr_events_for_repo repo tbl).filter
          (fun e => decide (e.pr_action = some "opened"))).length < 2 →
        handle_pr_average_request (some repo) tbl counters =
          .insufficientData repo
            ((get_pr_events_for_repo repo tbl).filter
              (fun e => decide (e.pr_action = some "opened"))).length
            (get_pr_events_for_repo repo tbl).length) := by
  have hfall : ∀ pr_events : List Item,
      (pr_events.filter (fun e => decide (e.pr_action = some "opened"))).length < 2 →
        calculate_average_time_between_pr pr_events = avg_over_all_rows pr_events := by
    intro pr_events h
    rw [calculate_average_time_between_pr, avg_over_all_rows]
    rw [if_pos h]
  refine ⟨hfall, ?_, ?_⟩
  · intro pr_events h hlen hparse
    rw [hfall pr_events h, avg_over_all_rows]
    rw [if_neg (by omega), if_pos hparse]
    rfl
  · intro repo tbl counters hvalid hlt
    have hne : ¬ (repo = "") := by
      intro e
      subst e
      simp [is_valid_github_repo_name] at hvalid
    simp only [handle_pr_average_request, Option.getD_some]
    rw [if_neg hne, if_pos hvalid, if_pos hlt]

/-- Witness for C3: the helper falls back on two non-opened rows (computing
their mean), while the endpoint answers "insufficient data" on a store with
1 opened of 3 pull-request rows. -/
theorem pr_average_fallback_location_witness :
    ((c3_two_closed.filter (fun e => decide (e.pr_action = some "opened"))).length < 2 ∧
      calculate_average_time_between_pr c3_two_closed = avg_over_all_rows c3_two_closed) ∧
    calculate_average_time_between_pr c3_two_closed =
      .ok (meanConsecDiffsSorted
        (c3_two_closed.filterMap (fun e => parse_created_at e.created_at))) ∧
    handle_pr_average_request (some "octocat/hello-world") c3_items [("a/b", 5)] =
      .insufficientData "octocat/hello-world" 1 3 := by
  refine ⟨⟨by decide, ?_⟩, ?_, ?_⟩
  · exact pr_average_fallback_location.1 c3_two_closed (by decide)
  · exact pr_average_fallback_location.2.1 c3_two_closed (by decide) (by decide) (by decide)
  · exact pr_average_fallback_location.2.2 "octocat/hello-world" c3_items [("a/b", 5)]
      (by decide) (by decide)

/-- C4 counterexample: an entity with exactly 2 recorded opened-PR events
(enough to compute an average) is *not* listed: the scan keeps only
counters strictly greater than the `min_count` of 2. -/
theorem eligible_repo_listing_cex :
    list_repos_with_opened_pr 2 [("octocat/hello-world", 2)] = [] ∧
    handle_pr_average_request none [] [("octocat/hello-world", 2)] = .reposList none := by
  decide

/-- C4 (amended): with no entity-name parameter the endpoint returns
exactly the entities whose recorded opened-PR counter is strictly greater
than 2 (at least 3); entities with exactly 2 are omitted. -/
theorem eligible_repo_listing :
    (∀ (counters : CounterTable) (r : String),
      r ∈ list_repos_with_opened_pr 2 counters ↔ ∃ c, (r, c) ∈ counters ∧ 2 < c) ∧
    (∀ (tbl : EventsTable) (counters : CounterTable),
      handle_pr_average_request none tbl counters =
        .reposList (if (list_repos_with_opened_pr 2 counters).isEmpty then none
          else some (list_repos_with_opened_pr 2 counters))) := by
  constructor
  · intro counters r
    simp only [list_repos_with_opened_pr, List.mem_map, List.mem_filter,
      decide_eq_true_eq]
    constructor
    · rintro ⟨⟨a, b⟩, ⟨hmem, hlt⟩, rfl⟩
      exact ⟨b, hmem, hlt⟩
    · rintro ⟨c, hmem, hlt⟩
      exact ⟨(r, c), ⟨hmem, hlt⟩, rfl⟩
  · intro tbl counters
    rfl

/-- C9 counterexample: an empty entity-name parameter contains zero
slashes (so not exactly one), yet the endpoint answers the listing branch
with HTTP 200, not a validation error. -/
theorem empty_repo_param_cex :
    (splitOnSlashChars "".toList).length ≠ 2 ∧
    handle_pr_average_request (some "") [] [] = .reposList none := by decide

/-- C9 (amended): every NON-EMPTY entity-name parameter that contains
`..`, starts or ends with `/`, does not split on `/` into exactly two
segments, or whose owner exceeds 39 or repo exceeds 100 characters, is
answered with the validation error — and the answer is the same for every
event-store content, so no store data can reach the response. -/
theorem invalid_repo_name_rejected (s : String) (counters : CounterTable)
    (hne : s ≠ "")
    (hbad : hasInfix ['.', '.'] s.toList = true ∨
      s.toList.head? = some '/' ∨
      s.toList.getLast? = some '/' ∨
      (splitOnSlashChars s.toList).length ≠ 2 ∨
      (∃ owner repo, splitOnSlashChars s.toList = [owner, repo] ∧
        (39 < owner.length ∨ 100 < repo.length))) :
    ∀ tbl : EventsTable,
      handle_pr_average_request (some s) tbl counters = .invalidRepoName := by
  have hvalid : is_valid_github_repo_name s = false := by
    rw [is_valid_github_repo_name, if_neg hne]
    by_cases hb : (hasInfix ['.', '.'] s.toList
        || decide (s.toList.head? = some '/')
        || decide (s.toList.getLast? = some '/')) = true
    · rw [if_pos hb]
    · rw [if_neg hb]
      rcases hbad with h | h | h | h | ⟨owner, repo, hsplit, hlen⟩
      · exact absurd (by rw [Bool.or_eq_true, Bool.or_eq_true]
                         exact Or.inl (Or.inl h)) hb
      · exact absurd (by rw [Bool.or_eq_true, Bool.or_eq_true]
                         exact Or.inl (Or.inr (decide_eq_true h))) hb
      · exact absurd (by rw [Bool.or_eq_true, Bool.or_eq_true]
                         exact Or.inr (decide_eq_true h)) hb
      · generalize hsp : splitOnSlashChars s.toList = l at h ⊢
        rcases l with _ | ⟨o, _ | ⟨r2, _ | ⟨x, xs⟩⟩⟩
        · rfl
        · rfl
        · exact absurd rfl h
        · rfl
      · generalize hsp : splitOnSlashChars s.toList = l at hsplit ⊢
        subst hsplit
        by_cases hp : (matches_name_pattern owner && matches_name_pattern repo) = true
        · rcases hlen with h5 | h5 <;> simp [hp, h5]
        · simp [hp]
  intro tbl
  simp only [handle_pr_average_request, Option.getD_some]
  rw [if_neg hne, if_neg (by simp [hvalid])]

/-- Witness for C9: a name containing `..` is rejected with the validation
error. -/
theorem invalid_repo_name_rejected_witness :
    ("a..b/c" ≠ "") ∧ hasInfix ['.', '.'] "a..b/c".toList = true ∧
    handle_pr_average_request (some "a..b/c") [] [] = .invalidRepoName :=
  ⟨by decide, by decide,
    invalid_repo_name_rejected "a..b/c" [] (by decide) (Or.inl (by decide)) []⟩

/-- `calculate_average_time_between_pr` is the no-filter computation
applied to the selected list (opened rows, or all rows as fallback). -/
theorem calculate_eq_avg_over_sel (evs : List Item) :
    calculate_average_time_between_pr evs =
      avg_over_all_rows
        (if (evs.filter (fun e => decide (e.pr_action = some "opened"))).length < 2
          then evs else evs.filter (fun e => decide (e.pr_action = some "opened"))) := rfl

theorem perm_all_eq {α : Type} (p : α → Bool) {l l' : List α} (h : l.Perm l') :
    l.all p = l'.all p := by
  rw [Bool.eq_iff_iff]
  simp only [List.all_eq_true]
  constructor
  · intro H x hx
    exact H x (h.mem_iff.mpr hx)
  · intro H x hx
    exact H x (h.mem_iff.mp hx)

theorem insertionSort_eq_of_perm_int {l l' : List Int} (h : l.Perm l') :
    List.insertionSort (· ≤ ·) l = List.insertionSort (· ≤ ·) l' :=
  List.eq_of_perm_of_sorted
    ((List.perm_insertionSort _ _).trans (h.trans (List.perm_insertionSort _ _).symm))
    (List.sorted_insertionSort _ _) (List.sorted_insertionSort _ _)

theorem avg_over_all_rows_perm {l l' : List Item} (h : l.Perm l') :
    avg_over_all_rows l = avg_over_all_rows l' := by
  have hlen := h.length_eq
  have hall := perm_all_eq (fun e => (parse_created_at e.created_at).isSome) h
  have hsorted :=
    insertionSort_eq_of_perm_int (h.filterMap (fun e => parse_created_at e.created_at))
  simp only [avg_over_all_rows, hlen, hall, hsorted]

theorem calculate_average_perm (evs evs' : List Item) (h : evs.Perm evs') :
    calculate_average_time_between_pr evs = calculate_average_time_between_pr evs' := by
  rw [calculate_eq_avg_over_sel, calculate_eq_avg_over_sel]
  apply avg_over_all_rows_perm
  have hflen := (h.filter (fun e => decide (e.pr_action = some "opened"))).length_eq
  by_cases hc : (evs.filter (fun e => decide (e.pr_action = some "opened"))).length < 2
  · rw [if_pos hc, if_pos (hflen ▸ hc)]
    exact h
  · rw [if_neg hc, if_neg (hflen ▸ hc)]
    exact h.filter _

theorem calc_avg_all_opened (evs : List Item) (hlen : 2 ≤ evs.length)
    (hopen : ∀ e ∈ evs, e.pr_action = some "opened")
    (hparse : evs.all (fun e => (parse_created_at e.created_at).isSome) = true) :
    calculate_average_time_between_pr evs =
      .ok (meanConsecDiffsSorted (evs.filterMap (fun e => parse_created_at e.created_at))) := by
  have hfeq : evs.filter (fun e => decide (e.pr_action = some "opened")) = evs :=
    List.filter_eq_self.mpr (fun a ha => by simp [hopen a ha])
  rw [calculate_eq_avg_over_sel, hfeq, ite_self]
  simp only [avg_over_all_rows]
  rw [if_neg (by omega), if_pos hparse]
  rfl

theorem round2_750 : round2 (750 : Rat) = 750 := by
  rw [round2, round_half_even]
  rw [show (750 : Rat) * 100 = 75000 from by norm_num]
  rw [show ⌊(75000 : Rat)⌋ = 75000 from by
    rw [show (75000 : Rat) = ((75000 : Int) : Rat) from by norm_num, Int.floor_intCast]]
  rw [if_pos (by push_cast; norm_num)]
  push_cast
  norm_num

theorem calc_c5_750 : calculate_average_time_between_pr c5_opened = .ok 750 := by
  have hts : c5_opened.filterMap (fun e => parse_created_at e.created_at) =
      [1755950400, 1755951000, 1755951900] := by decide
  rw [calculate_eq_avg_over_sel]
  rw [show (if (c5_opened.filter (fun e => decide (e.pr_action = some "opened"))).length < 2
      then c5_opened else c5_opened.filter (fun e => decide (e.pr_action = some "opened")))
      = c5_opened from by decide]
  simp only [avg_over_all_rows]
  rw [if_neg (by decide), if_pos (by decide), hts]
  rw [show consecDiffs (List.insertionSort (· ≤ ·) [(1755950400 : Int), 1755951000, 1755951900])
      = [600, 900] from by decide]
  congr 1
  simp only [List.sum_cons, List.sum_nil, List.length_cons, List.length_nil]
  push_cast
  norm_num

theorem pr_average_handler_on_test_seed :
    handle_pr_average_request (some "octocat/hello-world") c5_items [] =
      .average "octocat/hello-world" 3 3 750 "2025-08-23T12:00:00Z" "2025-08-23T12:25:00Z" := by
  have h1 : get_pr_events_for_repo "octocat/hello-world" c5_items = c5_opened := by decide
  have hop : c5_opened.filter (fun e => decide (e.pr_action = some "opened")) = c5_opened := by
    decide
  simp only [handle_pr_average_request, Option.getD_some, h1, hop]
  rw [if_neg (by decide), if_pos (by decide), if_neg (by decide), calc_c5_750]
  simp only [round2_750]
  decide

/-- C5: on the test seed (opened PRs at 12:00, 12:10, 12:25 for one repo,
plus noise from another repo and another category) the endpoint reports an
average of 750.0 seconds; in general, for at least 2 qualifying (opened)
events whose timestamps all parse, the computed value is the arithmetic
mean of the consecutive differences of the ascending-sorted timestamps
(rounding to two decimals happens only in the response); and the result is
invariant under reordering (or duplicate placement) of the event list,
because of the sort. -/
theorem inter_arrival_average_correct :
    (handle_pr_average_request (some "octocat/hello-world") c5_items [] =
      .average "octocat/hello-world" 3 3 750 "2025-08-23T12:00:00Z" "2025-08-23T12:25:00Z") ∧
    (∀ evs : List Item, 2 ≤ evs.length →
      (∀ e ∈ evs, e.pr_action = some "opened") →
      evs.all (fun e => (parse_created_at e.created_at).isSome) = true →
      calculate_average_time_between_pr evs =
        .ok (meanConsecDiffsSorted (evs.filterMap (fun e => parse_created_at e.created_at)))) ∧
    (∀ evs evs' : List Item, evs.Perm evs' →
      calculate_average_time_between_pr evs = calculate_average_time_between_pr evs') :=
  ⟨pr_average_handler_on_test_seed, calc_avg_all_opened, calculate_average_perm⟩

/-- Witness for C5: the general mean formula instantiated on the three
seeded opened events, and order-insensitivity on the reversal of that
list. -/
theorem inter_arrival_average_correct_witness :
    (2 ≤ c5_opened.length ∧
      calculate_average_time_between_pr c5_opened =
        .ok (meanConsecDiffsSorted
          (c5_opened.filterMap (fun e => parse_created_at e.created_at)))) ∧
    calculate_average_time_between_pr c5_opened =
      calculate_average_time_between_pr c5_opened.reverse := by
  refine ⟨⟨by decide, ?_⟩, ?_⟩
  · exact inter_arrival_average_correct.2.1 c5_opened (by decide) (by decide) (by decide)
  · exact inter_arrival_average_correct.2.2 c5_opened c5_opened.reverse
      (c5_opened.reverse_perm).symm

theorem timeline_pre_length (hours interval : Nat) (now : Int)
    (bucket : Nat → Except Unit (String → Except Unit Nat)) :
    (timeline_pre hours interval now bucket).length = min (hours * 60 / interval) 100 := by
  simp [timeline_pre]

theorem timeline_pre_pairwise_ne (hours interval : Nat) (now : Int)
    (bucket : Nat → Except Unit (String → Except Unit Nat)) (hw : 1 ≤ interval) :
    (timeline_pre hours interval now bucket).Pairwise
      (fun a b => a.interval_start ≠ b.interval_start) := by
  rw [timeline_pre, List.pairwise_map]
  apply (List.pairwise_lt_range _).imp
  intro i j hij heq
  have hw2 : (0 : Int) < (interval : Int) := by exact_mod_cast hw
  have hlt : ((i : Int) + 1) * (interval : Int) < ((j : Int) + 1) * (interval : Int) := by
    apply mul_lt_mul_of_pos_right _ hw2
    have : (i : Int) < (j : Int) := by exact_mod_cast hij
    linarith
  simp only [] at heq
  linarith [heq, hlt]

theorem sort_pairwise_lt {l : List TimelinePoint}
    (hne : l.Pairwise (fun a b => a.interval_start ≠ b.interval_start)) :
    (List.insertionSort timeline_le l).Pairwise
      (fun a b => a.interval_start < b.interval_start) := by
  have hs : (List.insertionSort timeline_le l).Pairwise timeline_le :=
    List.sorted_insertionSort _ _
  have hne2 : (List.insertionSort timeline_le l).Pairwise
      (fun a b => a.interval_start ≠ b.interval_start) :=
    ((List.perm_insertionSort timeline_le l).pairwise_iff (fun h => h.symm)).mpr hne
  exact (hs.and hne2).imp (fun h => lt_of_le_of_ne h.1 h.2)

theorem timeline_sort_eq_of_perm {l l' : List TimelinePoint}
    (hne : l'.Pairwise (fun a b => a.interval_start ≠ b.interval_start))
    (h : l.Perm l') :
    List.insertionSort timeline_le l = List.insertionSort timeline_le l' := by
  haveI : IsAntisymm TimelinePoint
      (fun a b => a.interval_start < b.interval_start ∨ a = b) :=
    ⟨fun a b h1 h2 => by
      rcases h1 with h1 | h1
      · rcases h2 with h2 | h2
        · exact absurd h2 (not_lt_of_gt h1)
        · exact h2.symm
      · exact h1⟩
  have hne1 : l.Pairwise (fun a b => a.interval_start ≠ b.interval_start) :=
    (h.pairwise_iff (fun hx => hx.symm)).mpr hne
  have p1 : (List.insertionSort timeline_le l).Pairwise
      (fun a b => a.interval_start < b.interval_start ∨ a = b) :=
    (sort_pairwise_lt hne1).imp (fun hab => Or.inl hab)
  have p2 : (List.insertionSort timeline_le l').Pairwise
      (fun a b => a.interval_start < b.interval_start ∨ a = b) :=
    (sort_pairwise_lt hne).imp (fun hab => Or.inl hab)
  exact List.eq_of_perm_of_sorted
    ((List.perm_insertionSort _ _).trans (h.trans (List.perm_insertionSort _ _).symm))
    p1 p2

/-- C6: for every valid hours (1–168) and interval width (1–1440 minutes),
the returned timeline has exactly `min(hours·60 / interval, 100)` buckets,
strictly ascending by bucket start time; and sorting *any* permutation of
the collected bucket list (any completion order) yields the same
timeline. -/
theorem timeline_bucket_ordering (hours interval : Nat) (now : Int)
    (bucket : Nat → Except Unit (String → Except Unit Nat))
    (_hh1 : 1 ≤ hours) (_hh2 : hours ≤ 168) (hw1 : 1 ≤ interval) (_hw2 : interval ≤ 1440) :
    (get_event_timeline_data hours interval now bucket).length
      = min (hours * 60 / interval) 100 ∧
    (get_event_timeline_data hours interval now bucket).Pairwise
      (fun a b => a.interval_start < b.interval_start) ∧
    ∀ l : List TimelinePoint, l.Perm (timeline_pre hours interval now bucket) →
      List.insertionSort timeline_le l = get_event_timeline_data hours interval now bucket := by
  refine ⟨?_, ?_, ?_⟩
  · rw [get_event_timeline_data, (List.perm_insertionSort _ _).length_eq,
      timeline_pre_length]
  · exact sort_pairwise_lt (timeline_pre_pairwise_ne hours interval now bucket hw1)
  · intro l hperm
    rw [get_event_timeline_data]
    exact timeline_sort_eq_of_perm
      (timeline_pre_pairwise_ne hours interval now bucket hw1) hperm

/-- Witness for C6 at hours = 2, interval = 60 with an all-succeeding
bucket oracle: two buckets, strictly ascending, and sorting the reversed
(pre-sort) collection gives the same timeline. -/
theorem timeline_bucket_ordering_witness :
    (get_event_timeline_data 2 60 0 bucket_ok).length = min (2 * 60 / 60) 100 ∧
    (get_event_timeline_data 2 60 0 bucket_ok).Pairwise
      (fun a b => a.interval_start < b.interval_start) ∧
    List.insertionSort timeline_le (timeline_pre 2 60 0 bucket_ok).reverse =
      get_event_timeline_data 2 60 0 bucket_ok := by
  have H := timeline_bucket_ordering 2 60 0 bucket_ok
    (by decide) (by decide) (by decide) (by decide)
  exact ⟨H.1, H.2.1, H.2.2 _ (timeline_pre 2 60 0 bucket_ok).reverse_perm⟩

theorem lookupCount_map_self (f : String → Nat) :
    ∀ (types : List String) (t : String), t ∈ types →
      lookupCount (types.map (fun x => (x, f x))) t = some (f t)
  | [], t, h => absurd h (List.not_mem_nil t)
  | a :: rest, t, h => by
    by_cases hat : (a == t) = true
    · have ha : a = t := eq_of_beq hat
      subst ha
      simp [lookupCount, List.find?_cons_of_pos]
    · have ht : t ∈ rest := by
        rcases List.mem_cons.mp h with h2 | h2
        · exact absurd (beq_iff_eq.mpr h2.symm) hat
        · exact h2
      have hrec := lookupCount_map_self f rest t ht
      rw [lookupCount] at hrec ⊢
      rw [List.map_cons, List.find?_cons]
      simp only [Bool.not_eq_true] at hat
      rw [hat]
      exact hrec

theorem lookupCount_map_congr (f g : String → Nat) (t0 : String)
    (hfg : ∀ t, t ≠ t0 → f t = g t) :
    ∀ (types : List String) (t : String), t ≠ t0 →
      lookupCount (types.map (fun x => (x, f x))) t =
        lookupCount (types.map (fun x => (x, g x))) t
  | [], _, _ => rfl
  | a :: rest, t, h => by
    by_cases hat : (a == t) = true
    · have ha : a = t := eq_of_beq hat
      subst ha
      simp only [lookupCount, List.map_cons]
      rw [List.find?_cons_of_pos _ (by simp), List.find?_cons_of_pos _ (by simp)]
      simp [hfg a h]
    · have hrec := lookupCount_map_congr f g t0 hfg rest t h
      rw [lookupCount, lookupCount] at hrec ⊢
      rw [List.map_cons, List.map_cons, List.find?_cons, List.find?_cons]
      simp only [Bool.not_eq_true] at hat
      rw [hat]
      exact hrec

theorem timeline_pre_get (hours interval : Nat) (now : Int)
    (bucket : Nat → Except Unit (String → Except Unit Nat)) (i : Nat)
    (hi : i < (timeline_pre hours interval now bucket).length) :
    (timeline_pre hours interval now bucket).get ⟨i, hi⟩ =
      { interval_start := now - ((i : Int) + 1) * (interval : Int)
        interval_end := now - (i : Int) * (interval : Int)
        counts :=
          match bucket i with
          | .ok cell => get_interval_counts cell
          | .error _ => zero_counts } := by
  have hi2 : i < (List.range (min (hours * 60 / interval) 100)).length := by
    simpa [timeline_pre] using hi
  simp [timeline_pre, List.get_eq_getElem, List.getElem_map, List.getElem_range]

/-- C7: a failed or timed-out sub-query contributes a count of exactly 0
for its own cell only.  For the windowed-count operation and the per-bucket
category counts: when one category's query fails, that category reads 0,
every other category's count is unchanged, and the full per-category
mapping is still produced.  For the timeline: when one bucket's future
fails, that bucket's counts are all zero, every other bucket's data point
is unchanged, and the response still contains every bucket. -/
theorem degraded_subquery_zero_cell :
    (∀ (event_types : List String) (q q2 : String → Except Unit Nat) (t0 : String),
      q2 t0 = .error () → (∀ t, t ≠ t0 → q2 t = q t) →
      (t0 ∈ event_types →
        lookupCount (get_events_by_type_and_time event_types q2) t0 = some 0) ∧
      (∀ t ∈ event_types, t ≠ t0 →
        lookupCount (get_events_by_type_and_time event_types q2) t =
          lookupCount (get_events_by_type_and_time event_types q) t) ∧
      (get_events_by_type_and_time event_types q2).length = event_types.length) ∧
    (∀ (cell cell2 : String → Except Unit Nat) (t0 : String),
      cell2 t0 = .error () → (∀ t, t ≠ t0 → cell2 t = cell t) →
      (t0 ∈ event_types_vis → lookupCount (get_interval_counts cell2) t0 = some 0) ∧
      (∀ t ∈ event_types_vis, t ≠ t0 →
        lookupCount (get_interval_counts cell2) t =
          lookupCount (get_interval_counts cell) t) ∧
      (get_interval_counts cell2).length = event_types_vis.length) ∧
    (∀ (hours interval : Nat) (now : Int)
        (bucket bucket2 : Nat → Except Unit (String → Except Unit Nat)) (i0 : Nat),
      bucket2 i0 = .error () → (∀ i, i ≠ i0 → bucket2 i = bucket i) →
      (timeline_pre hours interval now bucket2).length =
        (timeline_pre hours interval now bucket).length ∧
      (∀ (i : Nat) (hi : i < (timeline_pre hours interval now bucket2).length)
          (hi2 : i < (timeline_pre hours interval now bucket).length), i ≠ i0 →
        (timeline_pre hours interval now bucket2).get ⟨i, hi⟩ =
          (timeline_pre hours interval now bucket).get ⟨i, hi2⟩) ∧
      (∀ hi : i0 < (timeline_pre hours interval now bucket2).length,
        ((timeline_pre hours interval now bucket2).get ⟨i0, hi⟩).counts = zero_counts)) := by
  have hblock : ∀ (event_types : List String) (q q2 : String → Except Unit Nat) (t0 : String),
      q2 t0 = .error () → (∀ t, t ≠ t0 → q2 t = q t) →
      (t0 ∈ event_types →
        lookupCount (get_events_by_type_and_time event_types q2) t0 = some 0) ∧
      (∀ t ∈ event_types, t ≠ t0 →
        lookupCount (get_events_by_type_and_time event_types q2) t =
          lookupCount (get_events_by_type_and_time event_types q) t) ∧
      (get_events_by_type_and_time event_types q2).length = event_types.length := by
    intro event_types q q2 t0 h0 hsib
    refine ⟨?_, ?_, ?_⟩
    · intro hmem
      rw [get_events_by_type_and_time, lookupCount_map_self (qval q2) event_types t0 hmem]
      simp [qval, h0]
    · intro t hmem hne
      exact lookupCount_map_congr (qval q2) (qval q) t0
        (fun x hx => by simp [qval, hsib x hx]) event_types t hne
    · simp [get_events_by_type_and_time]
  refine ⟨hblock, ?_, ?_⟩
  · intro cell cell2 t0 h0 hsib
    exact hblock event_types_vis cell cell2 t0 h0 hsib
  · intro hours interval now bucket bucket2 i0 h0 hsib
    refine ⟨?_, ?_, ?_⟩
    · simp [timeline_pre]
    · intro i hi hi2 hne
      rw [timeline_pre_get, timeline_pre_get, hsib i hne]
    · intro hi
      rw [timeline_pre_get]
      simp [h0]

/-- Witness for C7: with the `PullRequestEvent` cell failing, that cell
reads 0 while `WatchEvent` is unchanged; with bucket 0 failing, the
timeline keeps both buckets and bucket 0 carries all-zero counts. -/
theorem degraded_subquery_zero_cell_witness :
    lookupCount (get_events_by_type_and_time
      ["WatchEvent", "PullRequestEvent", "IssuesEvent"] q_fail_pr) "PullRequestEvent"
      = some 0 ∧
    lookupCount (get_events_by_type_and_time
        ["WatchEvent", "PullRequestEvent", "IssuesEvent"] q_fail_pr) "WatchEvent" =
      lookupCount (get_events_by_type_and_time
        ["WatchEvent", "PullRequestEvent", "IssuesEvent"] q_ok) "WatchEvent" ∧
    lookupCount (get_interval_counts q_fail_pr) "PullRequestEvent" = some 0 ∧
    (timeline_pre 2 60 0 bucket_fail0).length = (timeline_pre 2 60 0 bucket_ok).length ∧
    ((timeline_pre 2 60 0 bucket_fail0).get ⟨0, by decide⟩).counts = zero_counts := by
  have hfail : q_fail_pr "PullRequestEvent" = .error () := by simp [q_fail_pr]
  have hsib : ∀ t, t ≠ "PullRequestEvent" → q_fail_pr t = q_ok t := by
    intro t ht
    simp [q_fail_pr, ht]
  have hbfail : bucket_fail0 0 = .error () := by simp [bucket_fail0]
  have hbsib : ∀ i, i ≠ (0 : Nat) → bucket_fail0 i = bucket_ok i := by
    intro i hi
    simp [bucket_fail0, bucket_ok, hi]
  have H1 := degraded_subquery_zero_cell.1
    ["WatchEvent", "PullRequestEvent", "IssuesEvent"] q_ok q_fail_pr "PullRequestEvent"
    hfail hsib
  have H2 := degraded_subquery_zero_cell.2.1 q_ok q_fail_pr "PullRequestEvent" hfail hsib
  have H3 := degraded_subquery_zero_cell.2.2 2 60 0 bucket_ok bucket_fail0 0 hbfail hbsib
  exact ⟨H1.1 (by decide), H1.2.1 "WatchEvent" (by decide) (by decide),
    H2.1 (by decide), H3.1, H3.2.2 (by decide)⟩
